import Mathlib

/-!
Shallow embedding of the short-code allocation and redirect-recording core of
the `base` Django app (`src/base/models.py`, `src/base/views.py`).

Timestamps are modelled as integers (seconds); `timedelta(days = d)` becomes
`d * 86400`.  The persistent store is a pair of lists of rows.  The
user-agent classification collaborator (`parse_user_agent`, backed by the
external `user_agents` package) is passed in as an opaque function, as the
spec treats it as a pluggable external capability.
-/

/-- One row of the `URL` model (`src/base/models.py`, class `URL`). -/
structure URLRecord where
  original_url : String
  short_code : String
  title : String
  description : String
  created_at : Int
  created_by : Option String
  is_active : Bool
  expires_at : Option Int
  click_count : Nat
  last_clicked : Option Int
deriving Repr, DecidableEq

/-- One row of the `Click` model (`src/base/models.py`, class `Click`).
The foreign key to `URL` is modelled by the (unique) short code. -/
structure ClickRecord where
  url_code : String
  clicked_at : Int
  ip_address : String
  user_agent : String
  referer : Option String
  browser : String
  os : String
  device : String
deriving Repr, DecidableEq

/-- The persistent store: the two tables. -/
structure Store where
  urls : List URLRecord
  clicks : List ClickRecord
deriving Repr, DecidableEq

/-- Request metadata handed to the redirect view (client IP, raw user agent,
optional referer). -/
structure RequestMeta where
  ipAddress : String
  userAgentRaw : String
  referer : Option String
deriving Repr, DecidableEq

/-- `URL.is_expired` (`models.py` lines 53-56): expired iff `expires_at` is
set and `now > expires_at`. -/
def URLRecord.is_expired (u : URLRecord) (now : Int) : Bool :=
  match u.expires_at with
  | some e => now > e
  | none => false

/-- `URL.increment_click` (`models.py` lines 58-61), the in-memory part:
`self.click_count += 1; self.last_clicked = timezone.now()` on the fetched
object.  The subsequent `save` is modelled by `saveURL`. -/
def URLRecord.increment_click (u : URLRecord) (now : Int) : URLRecord :=
  { u with click_count := u.click_count + 1, last_clicked := some now }

/-- Writing a fetched-and-modified `URL` object back to its row
(`Model.save` on an existing primary key).  The row is identified by its
short code, which carries a unique constraint. -/
def saveURL (s : Store) (u : URLRecord) : Store :=
  { s with urls := s.urls.map (fun v => if v.short_code == u.short_code then u else v) }

/-- `get_object_or_404(URL, short_code=short_code, is_active=True)`
(`views.py` line 97): the first row with the given code that is active,
if any. -/
def findActive (s : Store) (sc : String) : Option URLRecord :=
  s.urls.find? (fun u => u.short_code == sc && u.is_active)

/-- Looking a code up among all rows, active or not. -/
def lookupCode (s : Store) (sc : String) : Option URLRecord :=
  s.urls.find? (fun u => u.short_code == sc)

/-- `URL.objects.filter(short_code=c).exists()`: membership of a code among
all rows, active or inactive. -/
def codeExists (s : Store) (c : String) : Bool :=
  s.urls.any (fun u => u.short_code == c)

/-- Result of the redirect view: 404 page, dedicated expired page carrying
the link, or an HTTP redirect to the target. -/
inductive RedirectOutcome where
  | notFound
  | expiredPage (u : URLRecord)
  | redirect (target : String)
deriving Repr, DecidableEq

/-- The `Click` row created by `Click.objects.create(...)` in
`redirect_url` (`views.py` lines 106-114), given the user-agent
classification collaborator `uaParse` returning (browser, os, device). -/
def mkClick (uaParse : String → String × String × String)
    (u : URLRecord) (meta : RequestMeta) (now : Int) : ClickRecord :=
  let p := uaParse meta.userAgentRaw
  { url_code := u.short_code
    clicked_at := now
    ip_address := meta.ipAddress
    user_agent := meta.userAgentRaw
    referer := meta.referer
    browser := p.1
    os := p.2.1
    device := p.2.2 }

/-- `redirect_url` (`views.py` lines 96-119): resolve the code among active
rows, refuse expired links, otherwise record a click, bump the counter and
redirect. -/
def redirect_url (uaParse : String → String × String × String)
    (s : Store) (sc : String) (meta : RequestMeta) (now : Int) :
    RedirectOutcome × Store :=
  match findActive s sc with
  | none => (.notFound, s)
  | some u =>
    if u.is_expired now then
      (.expiredPage u, s)
    else
      let click := mkClick uaParse u meta now
      let s1 : Store := { s with clicks := s.clicks ++ [click] }
      let s2 := saveURL s1 (u.increment_click now)
      (.redirect u.original_url, s2)

/-- A concrete link used by witnesses: active, expiring at time 10. -/
def wExpiredURL : URLRecord :=
  { original_url := "https://a.example", short_code := "abc123",
    title := "", description := "", created_at := 0,
    created_by := none, is_active := true,
    expires_at := some 10, click_count := 0, last_clicked := none }

/-- A concrete store holding just `wExpiredURL`. -/
def wExpiredStore : Store := { urls := [wExpiredURL], clicks := [] }

/-- A concrete request used by witnesses. -/
def wMeta : RequestMeta :=
  { ipAddress := "1.2.3.4", userAgentRaw := "UA", referer := none }

/-- A trivial user-agent classifier used by witnesses. -/
def wUAparse : String → String × String × String := fun _ => ("", "", "")

/-- A concrete link used by witnesses: active, no expiry. -/
def wActiveURL : URLRecord :=
  { original_url := "https://a.example", short_code := "abc123",
    title := "", description := "", created_at := 0,
    created_by := none, is_active := true,
    expires_at := none, click_count := 0, last_clicked := none }

/-- A concrete store holding just `wActiveURL`. -/
def wActiveStore : Store := { urls := [wActiveURL], clicks := [] }

/-- A concrete store holding an inactive copy of the link. -/
def wInactiveStore : Store :=
  { urls := [{ wActiveURL with is_active := false }], clicks := [] }

/-- Python's default whitespace set for `str.strip()`. -/
def isPySpace (c : Char) : Bool :=
  c = ' ' || c = '\t' || c = '\n' || c = '\r' || c = '\x0b' || c = '\x0c'

/-- Python `str.strip()`: drop whitespace from both ends. -/
def pyStrip (s : String) : String :=
  String.mk (((s.data.dropWhile isPySpace).reverse.dropWhile isPySpace).reverse)

/-- Digit run after the first digit of a Python integer literal: digits,
with single underscores allowed between digits. -/
def digitsCore : Nat → List Char → Option Nat
  | acc, [] => some acc
  | acc, c :: rest =>
    if c.isDigit then digitsCore (10 * acc + (c.toNat - 48)) rest
    else if c = '_' then
      match rest with
      | d :: rest2 =>
        if d.isDigit then digitsCore (10 * acc + (d.toNat - 48)) rest2 else none
      | [] => none
    else none

/-- An unsigned digit sequence (must start with a digit). -/
def digitsStart : List Char → Option Nat
  | [] => none
  | d :: rest => if d.isDigit then digitsCore (d.toNat - 48) rest else none

/-- Python's built-in `int()` on a string (ASCII digits, optional sign,
surrounding whitespace, underscore grouping); `none` models `ValueError`. -/
def pyInt (s : String) : Option Int :=
  match (pyStrip s).data with
  | [] => none
  | c :: rest =>
    if c = '-' then (digitsStart rest).map (fun n => -(n : Int))
    else if c = '+' then (digitsStart rest).map (fun n => (n : Int))
    else (digitsStart (c :: rest)).map (fun n => (n : Int))

/-- `str.startswith(p)` over explicit character lists. -/
def startsWithChars : List Char → List Char → Bool
  | [], _ => true
  | _ :: _, [] => false
  | a :: ps, b :: ss => a == b && startsWithChars ps ss

/-- `original_url.startswith(('http://', 'https://'))` (`views.py` lines
59 and 203). -/
def startsWithScheme (u : String) : Bool :=
  startsWithChars "http://".data u.data || startsWithChars "https://".data u.data

/-- The scheme normalization applied before storage (`views.py` lines
58-60 and 203-204): prepend `https://` when no recognized scheme. -/
def normalizeURL (u : String) : String :=
  if startsWithScheme u then u else "https://" ++ u

/-- `string.ascii_letters + string.digits` (`models.py` line 39): the
62-character alphanumeric alphabet. -/
def characters : List Char :=
  "abcdefghijklmnopqrstuvwxyzABCDEFGHIJKLMNOPQRSTUVWXYZ0123456789".data

/-- Indexing into the alphabet. -/
def charAt (i : Fin 62) : Char :=
  characters.get (Fin.cast rfl i)

/-- One candidate of `URL.generate_short_code` (`models.py` lines 40-41):
six characters drawn from the random stream `rand`, attempt `attempt`
consuming positions `6 * attempt` to `6 * attempt + 5`. -/
def randomCode (rand : Nat → Fin 62) (attempt : Nat) : String :=
  String.mk ((List.range 6).map (fun i => charAt (rand (6 * attempt + i))))

/-- The retry loop of `URL.generate_short_code` (`models.py` lines 37-43):
draw a candidate, return it unless some row (active or not) already has it,
otherwise retry.  `fuel` bounds the unbounded Python loop; `none` models
the loop not returning within `fuel` attempts. -/
def generateShortCodeAux (urls : List URLRecord) (rand : Nat → Fin 62) :
    Nat → Nat → Option String
  | _, 0 => none
  | attempt, fuel + 1 =>
    if urls.any (fun u => u.short_code == randomCode rand attempt) then
      generateShortCodeAux urls rand (attempt + 1) fuel
    else
      some (randomCode rand attempt)

/-- `URL.generate_short_code`, starting at the first attempt. -/
def generate_short_code (urls : List URLRecord) (rand : Nat → Fin 62)
    (fuel : Nat) : Option String :=
  generateShortCodeAux urls rand 0 fuel

/-- `URL.save` for a new object (`models.py` lines 32-35): generate a code
when none was assigned (`if not self.short_code`), then insert the row.
Returns the row as saved and the new store. -/
def saveNewURL (s : Store) (u : URLRecord) (rand : Nat → Fin 62)
    (fuel : Nat) : Option (URLRecord × Store) :=
  if u.short_code = "" then
    match generate_short_code s.urls rand fuel with
    | none => none
    | some c =>
      some ({ u with short_code := c },
            { s with urls := s.urls ++ [{ u with short_code := c }] })
  else
    some (u, { s with urls := s.urls ++ [u] })

/-- `expires_at` as computed by `create_short_url` (`views.py` lines
77-83): only a supplied, truthy `expires_in_days` that `int()` accepts
sets an expiry; a `ValueError` is swallowed (`except ValueError: pass`). -/
def expiryOf (exp : Option String) (now : Int) : Option Int :=
  match exp with
  | none => none
  | some v =>
    if v ≠ "" then
      match pyInt v with
      | some d => some (now + d * 86400)
      | none => none
    else none

/-- The candidate row assembled by `create_short_url` before `save`
(`views.py` lines 62-83): normalized target, custom code when supplied
(`if custom_code: url_obj.short_code = custom_code`, else the blank
default), computed expiry. -/
def formRow (ou t d cc : String) (exp : Option String)
    (owner : Option String) (now : Int) : URLRecord :=
  { original_url := normalizeURL (pyStrip ou),
    short_code := if pyStrip cc ≠ "" then pyStrip cc else "",
    title := pyStrip t, description := pyStrip d, created_at := now,
    created_by := owner, is_active := true, expires_at := expiryOf exp now,
    click_count := 0, last_clicked := none }

/-- The row `create_short_url` persists when a free custom code is
supplied (used to state the allocator theorems). -/
def customRow (ou t d cc : String) (exp : Option String)
    (owner : Option String) (now : Int) : URLRecord :=
  { original_url := normalizeURL (pyStrip ou), short_code := pyStrip cc,
    title := pyStrip t, description := pyStrip d, created_at := now,
    created_by := owner, is_active := true, expires_at := expiryOf exp now,
    click_count := 0, last_clicked := none }

/-- Outcome of the interactive creation view. -/
inductive CreateResult where
  | errorEmptyURL
  | errorCodeTaken
  | created (u : URLRecord)
  | outOfFuel
deriving Repr, DecidableEq

/-- `create_short_url` (`views.py` lines 44-94), POST branch.  Form fields
arrive as raw strings (absent fields default to `""`, mirroring
`request.POST.get(..., '')`); `exp` is `none` when `expires_in_days` is
absent.  `rand` and `fuel` feed the code generator, `owner` is the
authenticated user if any, `now` is `timezone.now()`. -/
def create_short_url (s : Store) (rand : Nat → Fin 62) (fuel : Nat)
    (original_url_raw title_raw description_raw custom_code_raw : String)
    (exp : Option String) (owner : Option String) (now : Int) :
    CreateResult × Store :=
  if pyStrip original_url_raw = "" then (.errorEmptyURL, s)
  else if pyStrip custom_code_raw ≠ "" ∧ codeExists s (pyStrip custom_code_raw) then
    (.errorCodeTaken, s)
  else
    match saveNewURL s
        (formRow original_url_raw title_raw description_raw custom_code_raw
          exp owner now) rand fuel with
    | none => (.outOfFuel, s)
    | some p => (.created p.1, p.2)

/-- The row created by `api_create_url` (`views.py` lines 206-209):
`URL.objects.create(original_url=..., created_by=...)` — no custom code,
no expiry, blank title and description. -/
def apiRow (raw : String) (owner : Option String) (now : Int) : URLRecord :=
  { original_url := normalizeURL (pyStrip raw), short_code := "",
    title := "", description := "", created_at := now, created_by := owner,
    is_active := true, expires_at := none, click_count := 0,
    last_clicked := none }

/-- Outcome of the JSON creation endpoint. -/
inductive ApiResult where
  | errorURLRequired
  | apiCreated (short_code : String) (original_url : String)
  | apiOutOfFuel
deriving Repr, DecidableEq

/-- `api_create_url` (`views.py` lines 194-222), POST branch with a valid
JSON body: `data.get('url', '').strip()`, the same scheme normalization,
then `URL.objects.create(...)` with no custom code and no expiry. -/
def api_create_url (s : Store) (rand : Nat → Fin 62) (fuel : Nat)
    (url_raw : String) (owner : Option String) (now : Int) :
    ApiResult × Store :=
  if pyStrip url_raw = "" then (.errorURLRequired, s)
  else
    match saveNewURL s (apiRow url_raw owner now) rand fuel with
    | none => (.apiOutOfFuel, s)
    | some p => (.apiCreated p.1.short_code p.1.original_url, p.2)

/-- One storage write of the click-recording tail of `redirect_url`.
Django autocommit gives each its own transaction; there is no enclosing
`transaction.atomic` block in the view. -/
inductive Effect where
  | insertClick (c : ClickRecord)
  | writeURL (u : URLRecord)
deriving Repr, DecidableEq

/-- Committing one write to the store. -/
def applyEffect (s : Store) : Effect → Store
  | .insertClick c => { s with clicks := s.clicks ++ [c] }
  | .writeURL u => saveURL s u

/-- The sequence of storage writes issued by `redirect_url` (`views.py`
lines 102-117): the `Click.objects.create` insert, then — separately —
the `save` performed by `increment_click`. -/
def redirectEffects (uaParse : String → String × String × String)
    (s : Store) (sc : String) (meta : RequestMeta) (now : Int) :
    List Effect :=
  match findActive s sc with
  | none => []
  | some u =>
    if u.is_expired now then []
    else
      [.insertClick (mkClick uaParse u meta now),
       .writeURL (u.increment_click now)]

/-- The store after only the first `k` writes have committed: an
invocation that halts between the two writes leaves exactly such a
prefix state visible. -/
def runWrites (s : Store) (effs : List Effect) (k : Nat) : Store :=
  (effs.take k).foldl applyEffect s

/-- Progress of one redirect invocation through `redirect_url`: `fetched`
carries the row exactly as read by `get_object_or_404` — including the
then-current `click_count`, which `increment_click` later reuses. -/
inductive Phase where
  | ready
  | fetched (u : URLRecord)
  | inserted (u : URLRecord)
  | finished
deriving Repr, DecidableEq

/-- One in-flight redirect invocation. -/
structure ThreadState where
  code : String
  meta : RequestMeta
  phase : Phase
deriving Repr, DecidableEq

/-- One atomic storage interaction of an invocation: the fetch (read), the
Click insert, and the write-back of `self.click_count += 1` — which uses
the stale counter of the object fetched earlier, as in `increment_click`
(`models.py` lines 58-61). -/
def stepThread (uaParse : String → String × String × String) (now : Int)
    (s : Store) (t : ThreadState) : Store × ThreadState :=
  match t.phase with
  | .ready =>
    match findActive s t.code with
    | none => (s, { t with phase := .finished })
    | some u =>
      if u.is_expired now then (s, { t with phase := .finished })
      else (s, { t with phase := .fetched u })
  | .fetched u =>
    ({ s with clicks := s.clicks ++ [mkClick uaParse u t.meta now] },
     { t with phase := .inserted u })
  | .inserted u =>
    (saveURL s (u.increment_click now), { t with phase := .finished })
  | .finished => (s, t)

/-- Run an interleaving: each schedule entry names the invocation that
performs its next atomic storage interaction. -/
def runSchedule (uaParse : String → String × String × String) (now : Int) :
    Store → List ThreadState → List Nat → Store × List ThreadState
  | s, ts, [] => (s, ts)
  | s, ts, i :: rest =>
    match ts[i]? with
    | none => runSchedule uaParse now s ts rest
    | some t =>
      let p := stepThread uaParse now s t
      runSchedule uaParse now p.1 (ts.set i p.2) rest

/-- A deterministic random stream for witnesses: position `n` yields
character index `n % 62`. -/
def wRand : Nat → Fin 62 := fun n => ⟨n % 62, Nat.mod_lt n (by decide)⟩

/-- Rows used by the generator witness: the first candidate of `wRand`
("abcdef") is already taken. -/
def wGenURLs : List URLRecord :=
  [{ wActiveURL with short_code := "abcdef" }]

/-- A store in which the code "mycode" is taken by an inactive row. -/
def wTakenStore : Store :=
  { urls := [{ wActiveURL with short_code := "mycode", is_active := false }],
    clicks := [] }

/-- A ready redirect invocation on `abc123`, for interleaving runs. -/
def wThread : ThreadState :=
  { code := "abc123", meta := wMeta, phase := .ready }

/-- Claim C2: resolving an active code whose `expires_at` is set and earlier
than now returns the expired outcome carrying the link and leaves the store
untouched: no ClickEvent is created and `click_count` / `last_clicked` are
unchanged. -/
theorem redirect_expired_no_click
    (uaParse : String → String × String × String)
    (s : Store) (sc : String) (meta : RequestMeta) (now : Int)
    (u : URLRecord) (e : Int)
    (hfind : findActive s sc = some u)
    (hexp : u.expires_at = some e) (hlt : e < now) :
    redirect_url uaParse s sc meta now = (.expiredPage u, s) := by
  unfold redirect_url
  rw [hfind]
  have hx : u.is_expired now = true := by
    unfold URLRecord.is_expired
    rw [hexp]
    simpa using hlt
  simp [hx]

/-- Witness for `redirect_expired_no_click` at a concrete expired link. -/
theorem redirect_expired_no_click_witness :
    redirect_url wUAparse wExpiredStore "abc123" wMeta 11
      = (.expiredPage wExpiredURL, wExpiredStore) :=
  redirect_expired_no_click wUAparse wExpiredStore "abc123" wMeta 11
    wExpiredURL 10 (by decide) rfl (by decide)

/-- After writing back a row keyed by `u2.short_code`, looking that code up
finds `u2`, provided some row with that code was present. -/
theorem find_code_after_save (l : List URLRecord) (u u2 : URLRecord)
    (hmem : u ∈ l) (hcode : u2.short_code = u.short_code) :
    (l.map (fun v => if v.short_code == u2.short_code then u2 else v)).find?
      (fun v => v.short_code == u.short_code) = some u2 := by
  induction l with
  | nil => cases hmem
  | cons h t ih =>
    by_cases hc : h.short_code = u2.short_code
    · simp only [List.map_cons]
      rw [if_pos (by simp [hc])]
      exact List.find?_cons_of_pos _ (by simp [hcode])
    · simp only [List.map_cons]
      rw [if_neg (by simp [hc])]
      have hmem' : u ∈ t := by
        rcases List.mem_cons.mp hmem with h1 | h1
        · exact absurd (by rw [hcode, h1]) hc
        · exact h1
      rw [List.find?_cons_of_neg _ (by simp [hcode ▸ hc])]
      exact ih hmem'

/-- Rows whose code differs from the written-back one are untouched by the
write-back. -/
theorem mem_after_save (l : List URLRecord) (u2 v : URLRecord)
    (hv : v ∈ l) (hne : v.short_code ≠ u2.short_code) :
    v ∈ l.map (fun w => if w.short_code == u2.short_code then u2 else w) :=
  List.mem_map.mpr ⟨v, hv, by simp [hne]⟩

/-- Claim C1: resolving an existing, active, unexpired code redirects to the
link's target, appends exactly one ClickEvent carrying the request's IP,
raw user agent, referer and the parsed browser/os/device at the event time,
and updates exactly that link's row: its `click_count` grows by 1 and
`last_clicked` becomes the event time, every other row surviving unchanged. -/
theorem redirect_records_click
    (uaParse : String → String × String × String)
    (s : Store) (sc : String) (meta : RequestMeta) (now : Int)
    (u : URLRecord)
    (hfind : findActive s sc = some u)
    (hexp : u.is_expired now = false) :
    (redirect_url uaParse s sc meta now).1 = .redirect u.original_url ∧
    (redirect_url uaParse s sc meta now).2.clicks = s.clicks ++
      [{ url_code := u.short_code, clicked_at := now,
         ip_address := meta.ipAddress, user_agent := meta.userAgentRaw,
         referer := meta.referer, browser := (uaParse meta.userAgentRaw).1,
         os := (uaParse meta.userAgentRaw).2.1,
         device := (uaParse meta.userAgentRaw).2.2 }] ∧
    lookupCode (redirect_url uaParse s sc meta now).2 sc =
      some { u with click_count := u.click_count + 1, last_clicked := some now } ∧
    ∀ v ∈ s.urls, v.short_code ≠ u.short_code →
      v ∈ (redirect_url uaParse s sc meta now).2.urls := by
  have hmem : u ∈ s.urls := List.mem_of_find?_eq_some hfind
  have hpred := List.find?_some hfind
  simp only [Bool.and_eq_true, beq_iff_eq] at hpred
  have hcode : u.short_code = sc := hpred.1
  have hred : redirect_url uaParse s sc meta now =
      (.redirect u.original_url,
        saveURL { s with clicks := s.clicks ++ [mkClick uaParse u meta now] }
          (u.increment_click now)) := by
    unfold redirect_url
    rw [hfind]
    simp [hexp]
  refine ⟨by rw [hred], ?_, ?_, ?_⟩
  · rw [hred]
    simp [saveURL, mkClick]
  · rw [hred]
    unfold lookupCode saveURL
    simp only
    rw [← hcode]
    exact find_code_after_save s.urls u _ hmem rfl
  · intro v hv hne
    rw [hred]
    exact mem_after_save s.urls _ v hv hne

/-- Witness for `redirect_records_click` at a concrete active link. -/
theorem redirect_records_click_witness :
    (redirect_url wUAparse wActiveStore "abc123" wMeta 5).1
        = .redirect "https://a.example" ∧
    (redirect_url wUAparse wActiveStore "abc123" wMeta 5).2.clicks = [] ++
      [{ url_code := "abc123", clicked_at := 5,
         ip_address := "1.2.3.4", user_agent := "UA",
         referer := none, browser := "", os := "", device := "" }] ∧
    lookupCode (redirect_url wUAparse wActiveStore "abc123" wMeta 5).2 "abc123" =
      some { wActiveURL with click_count := 1, last_clicked := some 5 } ∧
    ∀ v ∈ wActiveStore.urls, v.short_code ≠ "abc123" →
      v ∈ (redirect_url wUAparse wActiveStore "abc123" wMeta 5).2.urls := by
  have h := redirect_records_click wUAparse wActiveStore "abc123" wMeta 5
    wActiveURL (by decide) (by decide)
  simpa [wActiveStore, wActiveURL, wMeta, wUAparse] using h

/-- Claim C3: when no row carries the requested code, or every row carrying
it is inactive, the redirect view returns the not-found outcome and the
store is untouched: no ClickEvent is created and no counter changes. -/
theorem redirect_not_found
    (uaParse : String → String × String × String)
    (s : Store) (sc : String) (meta : RequestMeta) (now : Int)
    (h : ∀ u ∈ s.urls, u.short_code = sc → u.is_active = false) :
    redirect_url uaParse s sc meta now = (.notFound, s) := by
  have hfind : findActive s sc = none := by
    apply List.find?_eq_none.mpr
    intro u hu
    by_cases hc : u.short_code = sc
    · simp [hc, h u hu hc]
    · simp [hc]
  unfold redirect_url
  rw [hfind]

/-- Witness for `redirect_not_found`: an inactive link and a missing code. -/
theorem redirect_not_found_witness :
    redirect_url wUAparse wInactiveStore "abc123" wMeta 5
      = (.notFound, wInactiveStore) ∧
    redirect_url wUAparse wInactiveStore "zzz" wMeta 5
      = (.notFound, wInactiveStore) :=
  ⟨redirect_not_found wUAparse wInactiveStore "abc123" wMeta 5 (by decide),
   redirect_not_found wUAparse wInactiveStore "zzz" wMeta 5 (by decide)⟩

/-- Every candidate code drawn by the generator has length 6. -/
theorem randomCode_length (rand : Nat → Fin 62) (a : Nat) :
    (randomCode rand a).length = 6 := by
  simp [randomCode, String.length]

/-- Every character of a candidate code lies in the alphabet. -/
theorem randomCode_chars (rand : Nat → Fin 62) (a : Nat) :
    ∀ ch ∈ (randomCode rand a).data, ch ∈ characters := by
  intro ch hch
  simp only [randomCode, List.mem_map, List.mem_range] at hch
  obtain ⟨i, _, rfl⟩ := hch
  exact List.get_mem _ _ _

/-- Whatever the retry loop returns is some attempt's candidate and is free
among the given rows. -/
theorem generateShortCodeAux_some (urls : List URLRecord)
    (rand : Nat → Fin 62) :
    ∀ fuel attempt c,
      generateShortCodeAux urls rand attempt fuel = some c →
      (∃ a, c = randomCode rand a) ∧
        urls.any (fun u => u.short_code == c) = false := by
  intro fuel
  induction fuel with
  | zero =>
    intro attempt c h
    simp [generateShortCodeAux] at h
  | succ n ih =>
    intro attempt c h
    rw [generateShortCodeAux] at h
    by_cases hc : urls.any (fun u => u.short_code == randomCode rand attempt) = true
    · rw [if_pos hc] at h
      exact ih (attempt + 1) c h
    · rw [if_neg hc] at h
      obtain rfl : randomCode rand attempt = c := by simpa using h
      exact ⟨⟨attempt, rfl⟩, Bool.eq_false_iff.mpr hc⟩

/-- Claim C4: whenever the generator returns a code it has length exactly
6, all its characters come from the 62-character alphanumeric alphabet,
and it differs from the code of every persisted row, active or inactive;
moreover, on a collision the loop draws the next fresh candidate and goes
on retrying. -/
theorem generated_code_props :
    (∀ (urls : List URLRecord) (rand : Nat → Fin 62) (fuel : Nat) (c : String),
      generate_short_code urls rand fuel = some c →
        c.length = 6 ∧ (∀ ch ∈ c.data, ch ∈ characters) ∧
        ∀ u ∈ urls, u.short_code ≠ c) ∧
    (∀ (urls : List URLRecord) (rand : Nat → Fin 62) (attempt fuel : Nat),
      urls.any (fun u => u.short_code == randomCode rand attempt) = true →
        generateShortCodeAux urls rand attempt (fuel + 1) =
          generateShortCodeAux urls rand (attempt + 1) fuel) := by
  constructor
  · intro urls rand fuel c h
    obtain ⟨⟨a, rfl⟩, hfree⟩ := generateShortCodeAux_some urls rand fuel 0 _ h
    refine ⟨randomCode_length rand a, randomCode_chars rand a, ?_⟩
    intro u hu
    have hf := List.any_eq_false.mp hfree u hu
    simpa using hf
  · intro urls rand attempt fuel hc
    rw [generateShortCodeAux]
    rw [if_pos hc]

/-- Witness for `generated_code_props`: with the deterministic stream
`wRand` and "abcdef" already taken, the loop retries once and returns
"ghijkl", which is fresh, six characters long and alphanumeric. -/
theorem generated_code_props_witness :
    (("ghijkl" : String).length = 6 ∧
      (∀ ch ∈ ("ghijkl" : String).data, ch ∈ characters) ∧
      ∀ u ∈ wGenURLs, u.short_code ≠ "ghijkl") ∧
    generateShortCodeAux wGenURLs wRand 0 2 =
      generateShortCodeAux wGenURLs wRand 1 1 :=
  ⟨generated_code_props.1 wGenURLs wRand 2 "ghijkl" (by decide),
   generated_code_props.2 wGenURLs wRand 0 1 (by decide)⟩

/-- `save` on a new object keeps the target URL and expiry it was built
with, and appends exactly one row. -/
theorem saveNewURL_fields (s : Store) (u : URLRecord) (rand : Nat → Fin 62)
    (fuel : Nat) (p : URLRecord × Store)
    (h : saveNewURL s u rand fuel = some p) :
    p.1.original_url = u.original_url ∧ p.1.expires_at = u.expires_at ∧
      p.2 = { s with urls := s.urls ++ [p.1] } := by
  unfold saveNewURL at h
  by_cases hsc : u.short_code = ""
  · rw [if_pos hsc] at h
    cases hg : generate_short_code s.urls rand fuel with
    | none => rw [hg] at h; cases h
    | some c =>
      rw [hg] at h
      cases h
      exact ⟨rfl, rfl, rfl⟩
  · rw [if_neg hsc] at h
    cases h
    exact ⟨rfl, rfl, rfl⟩

/-- With a nonempty target and a free, nonempty custom code, the
interactive creation view persists exactly the expected row. -/
theorem create_custom_path (s : Store) (rand : Nat → Fin 62) (fuel : Nat)
    (ou t d cc : String) (exp : Option String) (owner : Option String)
    (now : Int)
    (hne : pyStrip ou ≠ "") (hcc : pyStrip cc ≠ "")
    (hfree : codeExists s (pyStrip cc) = false) :
    create_short_url s rand fuel ou t d cc exp owner now =
      (.created (customRow ou t d cc exp owner now),
       { s with urls := s.urls ++ [customRow ou t d cc exp owner now] }) := by
  unfold create_short_url
  rw [if_neg hne, if_neg (by simp [hfree])]
  have hrow : formRow ou t d cc exp owner now =
      customRow ou t d cc exp owner now := by
    unfold formRow customRow
    rw [if_pos hcc]
  have hsave : saveNewURL s (customRow ou t d cc exp owner now) rand fuel =
      some (customRow ou t d cc exp owner now,
        { s with urls := s.urls ++ [customRow ou t d cc exp owner now] }) := by
    unfold saveNewURL
    rw [if_neg (by simp [customRow, hcc])]
  rw [hrow, hsave]

/-- Any row the interactive creation view reports as created carries the
normalized target URL and the computed expiry. -/
theorem create_created_fields (s : Store) (rand : Nat → Fin 62) (fuel : Nat)
    (ou t d cc : String) (exp : Option String) (owner : Option String)
    (now : Int) (u : URLRecord)
    (h : (create_short_url s rand fuel ou t d cc exp owner now).1 =
      .created u) :
    u.original_url = normalizeURL (pyStrip ou) ∧
      u.expires_at = expiryOf exp now := by
  unfold create_short_url at h
  by_cases h1 : pyStrip ou = ""
  · rw [if_pos h1] at h
    simp at h
  · rw [if_neg h1] at h
    by_cases h2 : pyStrip cc ≠ "" ∧ codeExists s (pyStrip cc)
    · rw [if_pos h2] at h
      simp at h
    · rw [if_neg h2] at h
      split at h
      · simp at h
      · rename_i p hs
        simp only [CreateResult.created.injEq] at h
        subst h
        obtain ⟨ho, he, -⟩ := saveNewURL_fields _ _ _ _ _ hs
        simp only [formRow] at ho he
        exact ⟨ho, he⟩

/-- Any row the JSON creation endpoint reports as created carries the
normalized target URL. -/
theorem api_created_fields (s : Store) (rand : Nat → Fin 62) (fuel : Nat)
    (raw : String) (owner : Option String) (now : Int) (code orig : String)
    (h : (api_create_url s rand fuel raw owner now).1 =
      .apiCreated code orig) :
    orig = normalizeURL (pyStrip raw) := by
  unfold api_create_url at h
  by_cases h1 : pyStrip raw = ""
  · rw [if_pos h1] at h
    simp at h
  · rw [if_neg h1] at h
    split at h
    · simp at h
    · rename_i p hs
      simp only [ApiResult.apiCreated.injEq] at h
      obtain ⟨ho, -, -⟩ := saveNewURL_fields _ _ _ _ _ hs
      simp only [apiRow] at ho
      rw [← h.2]
      exact ho

/-- Claim C5: allocating with a custom code equal to the code of any
existing row, active or inactive, fails with the code-taken error, is not
retried, and persists nothing: the store comes back unchanged. -/
theorem custom_code_taken_rejected (s : Store) (rand : Nat → Fin 62)
    (fuel : Nat) (ou t d cc : String) (exp : Option String)
    (owner : Option String) (now : Int)
    (hne : pyStrip ou ≠ "") (hcc : pyStrip cc ≠ "")
    (htaken : codeExists s (pyStrip cc) = true) :
    create_short_url s rand fuel ou t d cc exp owner now =
      (.errorCodeTaken, s) := by
  unfold create_short_url
  rw [if_neg hne, if_pos ⟨hcc, htaken⟩]

/-- Witness for `custom_code_taken_rejected`: "mycode" is held by an
inactive row and is still refused. -/
theorem custom_code_taken_rejected_witness :
    create_short_url wTakenStore wRand 10 "x.com" "" "" "mycode" none none 0
      = (.errorCodeTaken, wTakenStore) :=
  custom_code_taken_rejected wTakenStore wRand 10 "x.com" "" "" "mycode"
    none none 0 (by decide) (by decide) (by decide)

/-- Claim C8: in both creation endpoints a target URL that is empty after
trimming whitespace is rejected with the store unchanged; a trimmed target
lacking a recognized scheme prefix is stored with "https://" prepended; a
target already starting with "http://" or "https://" is stored unchanged. -/
theorem target_url_normalization :
    (∀ (s : Store) (rand : Nat → Fin 62) (fuel : Nat) (ou t d cc : String)
        (exp : Option String) (owner : Option String) (now : Int),
      pyStrip ou = "" →
        create_short_url s rand fuel ou t d cc exp owner now =
          (.errorEmptyURL, s)) ∧
    (∀ (s : Store) (rand : Nat → Fin 62) (fuel : Nat) (ou t d cc : String)
        (exp : Option String) (owner : Option String) (now : Int)
        (u : URLRecord),
      (create_short_url s rand fuel ou t d cc exp owner now).1 = .created u →
        (startsWithScheme (pyStrip ou) = false →
          u.original_url = "https://" ++ pyStrip ou) ∧
        (startsWithScheme (pyStrip ou) = true →
          u.original_url = pyStrip ou)) ∧
    (∀ (s : Store) (rand : Nat → Fin 62) (fuel : Nat) (raw : String)
        (owner : Option String) (now : Int),
      pyStrip raw = "" →
        api_create_url s rand fuel raw owner now = (.errorURLRequired, s)) ∧
    (∀ (s : Store) (rand : Nat → Fin 62) (fuel : Nat) (raw : String)
        (owner : Option String) (now : Int) (code orig : String),
      (api_create_url s rand fuel raw owner now).1 = .apiCreated code orig →
        (startsWithScheme (pyStrip raw) = false →
          orig = "https://" ++ pyStrip raw) ∧
        (startsWithScheme (pyStrip raw) = true → orig = pyStrip raw)) := by
  refine ⟨?_, ?_, ?_, ?_⟩
  · intro s rand fuel ou t d cc exp owner now h0
    unfold create_short_url
    rw [if_pos h0]
  · intro s rand fuel ou t d cc exp owner now u h
    obtain ⟨ho, -⟩ := create_created_fields s rand fuel ou t d cc exp owner now u h
    constructor
    · intro hsch
      rw [ho]
      unfold normalizeURL
      rw [if_neg (by simp [hsch])]
    · intro hsch
      rw [ho]
      unfold normalizeURL
      rw [if_pos hsch]
  · intro s rand fuel raw owner now h0
    unfold api_create_url
    rw [if_pos h0]
  · intro s rand fuel raw owner now code orig h
    have ho := api_created_fields s rand fuel raw owner now code orig h
    constructor
    · intro hsch
      rw [ho]
      unfold normalizeURL
      rw [if_neg (by simp [hsch])]
    · intro hsch
      rw [ho]
      unfold normalizeURL
      rw [if_pos hsch]

/-- Witness for `target_url_normalization`: a blank form, a custom-code
creation of "x.com" (scheme added), a blank API body, and an API creation
of "http://x.com" (stored unchanged). -/
theorem target_url_normalization_witness :
    create_short_url wActiveStore wRand 1 " " "" "" "" none none 0 =
        (.errorEmptyURL, wActiveStore) ∧
    (customRow "x.com" "" "" "mycode" none none 0).original_url =
        "https://" ++ pyStrip "x.com" ∧
    api_create_url wActiveStore wRand 1 "" none 0 =
        (.errorURLRequired, wActiveStore) ∧
    "http://x.com" = pyStrip "http://x.com" :=
  ⟨target_url_normalization.1 wActiveStore wRand 1 " " "" "" "" none none 0
      (by decide),
   (target_url_normalization.2.1 wActiveStore wRand 1 "x.com" "" "" "mycode"
      none none 0 (customRow "x.com" "" "" "mycode" none none 0)
      (by decide)).1 (by decide),
   target_url_normalization.2.2.1 wActiveStore wRand 1 "" none 0 (by decide),
   (target_url_normalization.2.2.2 wActiveStore wRand 1 "http://x.com" none 0
      "abcdef" "http://x.com" (by decide)).2 (by decide)⟩

/-- Claim C9: with a nonempty target and a free custom code, a supplied
`ttl_days` value that `int()` accepts sets the expiry to now plus that
many days (86400-second units), while a value `int()` rejects is silently
swallowed: the link is still created, with no expiry and no error. -/
theorem ttl_days_leniency (s : Store) (rand : Nat → Fin 62) (fuel : Nat)
    (ou t d cc v : String) (owner : Option String) (now : Int)
    (hne : pyStrip ou ≠ "") (hcc : pyStrip cc ≠ "")
    (hfree : codeExists s (pyStrip cc) = false) :
    (∀ dd : Int, pyInt v = some dd →
      ∃ u, (create_short_url s rand fuel ou t d cc (some v) owner now).1 =
          .created u ∧ u.expires_at = some (now + dd * 86400)) ∧
    (pyInt v = none →
      ∃ u, (create_short_url s rand fuel ou t d cc (some v) owner now).1 =
          .created u ∧ u.expires_at = none) := by
  have hmain := create_custom_path s rand fuel ou t d cc (some v) owner now
    hne hcc hfree
  constructor
  · intro dd hdd
    refine ⟨customRow ou t d cc (some v) owner now, by rw [hmain], ?_⟩
    have hv : v ≠ "" := by
      intro hv0
      rw [hv0, show pyInt "" = none from rfl] at hdd
      cases hdd
    simp [customRow, expiryOf, hv, hdd]
  · intro hnone
    refine ⟨customRow ou t d cc (some v) owner now, by rw [hmain], ?_⟩
    by_cases hv : v = ""
    · simp [customRow, expiryOf, hv]
    · simp [customRow, expiryOf, hv, hnone]

/-- Witness for `ttl_days_leniency`: `ttl_days = "7"` sets the expiry to
7 days from creation; `ttl_days = "soon"` is swallowed and the link is
created with no expiry. -/
theorem ttl_days_leniency_witness :
    (∃ u, (create_short_url wActiveStore wRand 1 "x.com" "" "" "mycode"
        (some "7") none 0).1 = .created u ∧
        u.expires_at = some (0 + 7 * 86400)) ∧
    (∃ u, (create_short_url wActiveStore wRand 1 "x.com" "" "" "mycode"
        (some "soon") none 0).1 = .created u ∧ u.expires_at = none) :=
  ⟨(ttl_days_leniency wActiveStore wRand 1 "x.com" "" "" "mycode" "7" none 0
      (by decide) (by decide) (by decide)).1 7 (by decide),
   (ttl_days_leniency wActiveStore wRand 1 "x.com" "" "" "mycode" "soon"
      none 0 (by decide) (by decide) (by decide)).2 (by decide)⟩

/-- A freshly appended row is found by the active lookup when no earlier
row carries its code. -/
theorem findActive_append (l : List URLRecord) (cl : List ClickRecord)
    (u : URLRecord) (sc : String)
    (hnone : ∀ w ∈ l, w.short_code ≠ sc)
    (hcode : u.short_code = sc) (hact : u.is_active = true) :
    findActive { urls := l ++ [u], clicks := cl } sc = some u := by
  unfold findActive
  show (l ++ [u]).find? (fun w => w.short_code == sc && w.is_active) = some u
  induction l with
  | nil =>
    simp only [List.nil_append]
    exact List.find?_cons_of_pos _ (by simp [hcode, hact])
  | cons h tl ih =>
    simp only [List.cons_append]
    rw [List.find?_cons_of_neg _ (by simp [hnone h (List.mem_cons_self h tl)])]
    exact ih (fun w hw => hnone w (List.mem_cons_of_mem h hw))

/-- Claim C10: a `ttl_days` value parsing to a zero or negative integer is
accepted as-is: the link is created with `expires_at = now + ttl_days`
days, a time not after `now`, so at every strictly later instant the
redirect view returns the expired outcome for it and records no click. -/
theorem nonpositive_ttl_immediately_expired
    (uaParse : String → String × String × String)
    (s : Store) (rand : Nat → Fin 62) (fuel : Nat)
    (ou t d cc v : String) (owner : Option String) (now : Int) (dd : Int)
    (meta : RequestMeta) (now' : Int)
    (hne : pyStrip ou ≠ "") (hcc : pyStrip cc ≠ "")
    (hfree : codeExists s (pyStrip cc) = false)
    (hdd : pyInt v = some dd) (hnp : dd ≤ 0) (hlater : now < now') :
    ∃ u s2,
      create_short_url s rand fuel ou t d cc (some v) owner now =
        (CreateResult.created u, s2) ∧
      u.expires_at = some (now + dd * 86400) ∧
      now + dd * 86400 ≤ now ∧
      redirect_url uaParse s2 (pyStrip cc) meta now' = (.expiredPage u, s2) := by
  have hmain := create_custom_path s rand fuel ou t d cc (some v) owner now
    hne hcc hfree
  have hv : v ≠ "" := by
    intro hv0
    rw [hv0, show pyInt "" = none from rfl] at hdd
    cases hdd
  have hexp : (customRow ou t d cc (some v) owner now).expires_at =
      some (now + dd * 86400) := by
    simp [customRow, expiryOf, hv, hdd]
  have hle : now + dd * 86400 ≤ now := by
    have h86 : dd * 86400 ≤ 0 := by
      have hm := mul_le_mul_of_nonneg_right hnp (by norm_num : (0 : Int) ≤ 86400)
      simpa using hm
    linarith
  refine ⟨customRow ou t d cc (some v) owner now,
    { s with urls := s.urls ++ [customRow ou t d cc (some v) owner now] },
    hmain, hexp, hle, ?_⟩
  have hnorow : ∀ w ∈ s.urls, w.short_code ≠ pyStrip cc := by
    intro w hw
    have hf := List.any_eq_false.mp hfree w hw
    simpa using hf
  have hfa : findActive
      { s with urls := s.urls ++ [customRow ou t d cc (some v) owner now] }
      (pyStrip cc) = some (customRow ou t d cc (some v) owner now) := by
    exact findActive_append s.urls s.clicks _ _ hnorow
      (by simp [customRow]) (by simp [customRow])
  have hexpired :
      (customRow ou t d cc (some v) owner now).is_expired now' = true := by
    simp [URLRecord.is_expired, hexp]
    linarith
  unfold redirect_url
  rw [hfa]
  simp [hexpired]

/-- Witness for `nonpositive_ttl_immediately_expired`: `ttl_days = "-1"`
yields a link already expired one day before creation; a redirect five
seconds later hits the expired page and writes nothing. -/
theorem nonpositive_ttl_immediately_expired_witness :
    ∃ u s2,
      create_short_url wActiveStore wRand 1 "x.com" "" "" "mycode"
          (some "-1") none 0 = (CreateResult.created u, s2) ∧
      u.expires_at = some (0 + -1 * 86400) ∧
      0 + -1 * 86400 ≤ 0 ∧
      redirect_url wUAparse s2 (pyStrip "mycode") wMeta 5 =
        (.expiredPage u, s2) :=
  nonpositive_ttl_immediately_expired wUAparse wActiveStore wRand 1
    "x.com" "" "" "mycode" "-1" none 0 (-1) wMeta 5
    (by decide) (by decide) (by decide) (by decide) (by decide) (by decide)

/-- Committing every write of `redirectEffects` reproduces the final store
of `redirect_url`, so the effect list is a faithful decomposition of the
view's storage activity. -/
theorem redirectEffects_complete
    (uaParse : String → String × String × String)
    (s : Store) (sc : String) (meta : RequestMeta) (now : Int) :
    (redirectEffects uaParse s sc meta now).foldl applyEffect s =
      (redirect_url uaParse s sc meta now).2 := by
  unfold redirectEffects redirect_url
  cases h : findActive s sc with
  | none => simp
  | some u =>
    by_cases hx : u.is_expired now = true
    · simp [hx]
    · simp [hx, applyEffect]

/-- Claim C6, refuted on the code: the Click insert and the counter update
of `redirect_url` are two separate storage writes with no enclosing
transaction.  At the concrete store `wActiveStore` the view issues exactly
two writes — committing both reproduces its final store — but committing
only the first leaves one new ClickEvent persisted while the link row
still has `click_count = 0` and `last_clicked = none`: a reachable partial
state the claim rules out. -/
theorem click_insert_and_increment_not_atomic :
    (redirectEffects wUAparse wActiveStore "abc123" wMeta 5).length = 2 ∧
    runWrites wActiveStore
        (redirectEffects wUAparse wActiveStore "abc123" wMeta 5) 2 =
      (redirect_url wUAparse wActiveStore "abc123" wMeta 5).2 ∧
    (runWrites wActiveStore
        (redirectEffects wUAparse wActiveStore "abc123" wMeta 5)
        1).clicks.length = wActiveStore.clicks.length + 1 ∧
    lookupCode
        (runWrites wActiveStore
          (redirectEffects wUAparse wActiveStore "abc123" wMeta 5) 1)
        "abc123" = some wActiveURL := by
  decide

/-- Claim C7, refuted on the code: `increment_click` performs
`self.click_count += 1` on the object fetched by `get_object_or_404` and
then saves it — an application-memory read-modify-write, not a
storage-layer atomic increment.  Two concurrent redirects of `abc123`
that both fetch before either saves finish (all phases `finished`) with
two ClickEvents but `click_count = 1`: one increment is lost, where the
claim demands initial + 2.  The same two invocations run back-to-back
reach `click_count = 2`. -/
theorem concurrent_redirects_lose_increment :
    (runSchedule wUAparse 5 wActiveStore [wThread, wThread]
        [0, 1, 0, 0, 1, 1]).2.all (fun t => t.phase == Phase.finished) = true ∧
    (runSchedule wUAparse 5 wActiveStore [wThread, wThread]
        [0, 1, 0, 0, 1, 1]).1.clicks.length = 2 ∧
    lookupCode (runSchedule wUAparse 5 wActiveStore [wThread, wThread]
        [0, 1, 0, 0, 1, 1]).1 "abc123" =
      some { wActiveURL with click_count := 1, last_clicked := some 5 } ∧
    lookupCode (runSchedule wUAparse 5 wActiveStore [wThread, wThread]
        [0, 0, 0, 1, 1, 1]).1 "abc123" =
      some { wActiveURL with click_count := 2, last_clicked := some 5 } := by
  decide
